import Mathlib

/-!
Verification development for the `repo_search` command-line tool: a shallow
embedding of its configuration model (`src/config.rs`), its three provider
adapters (`src/providers/{github,gitlab,bitbucket}.rs`), and its concurrent
search coordinator (`src/main.rs`), together with theorems settling the
specification claims about them.

Conventions of the embedding:
* Rust `HashMap<String, ProviderEntry>` is modelled as an association list
  with (invariantly) unique keys; `entry(k).or_insert(d)` followed by a field
  write is the `upsert` operation below.
* Network I/O is modelled by oracles: each adapter's `search` takes the
  would-be responses as a parameter and returns, besides its result, the
  list of request URLs it actually issued (in order).
* The nondeterministic completion order of the coordinator's join loop is
  modelled by taking the list of unit completions, in completion order, as
  the input of `execute_searches`.
* Machine integers (`usize`) are modelled as `Nat`; the programs involved
  never exercise overflow.
-/

/-- Models Rust `char::to_lowercase` as used by `str::to_lowercase` in
`ProviderType::from_name`; the two agree on ASCII, which is all that the
well-known names involve. -/
def lowerChar (c : Char) : Char :=
  if 'A' ≤ c ∧ c ≤ 'Z' then Char.ofNat (c.toNat + 32) else c

/-- Models Rust `str::to_lowercase` (ASCII fragment). -/
def toLowerAscii (s : String) : String :=
  String.mk (s.data.map lowerChar)

/-- Lexicographic comparison of character lists by code point; UTF-8 byte
order (Rust's `Ord` on `String`) coincides with code-point order. -/
def lexLe : List Char → List Char → Bool
  | [], _ => true
  | _ :: _, [] => false
  | a :: as, b :: bs =>
    if a.toNat < b.toNat then true
    else if b.toNat < a.toNat then false
    else lexLe as bs

/-- Models Rust `String` ordering (used by `Vec::<String>::sort`). -/
def strLe (a b : String) : Bool := lexLe a.data b.data

/-- UTF-8 encoding of a code point, as a list of byte values. -/
def utf8Bytes (n : Nat) : List Nat :=
  if n < 128 then [n]
  else if n < 2048 then [192 + n / 64, 128 + n % 64]
  else if n < 65536 then [224 + n / 4096, 128 + n / 64 % 64, 128 + n % 64]
  else [240 + n / 262144, 128 + n / 4096 % 64, 128 + n / 64 % 64, 128 + n % 64]

/-- Upper-case hexadecimal digit. -/
def hexDigit (n : Nat) : Char :=
  if n < 10 then Char.ofNat (48 + n) else Char.ofNat (55 + n)

/-- Percent-encoding of one byte. -/
def percentByte (b : Nat) : List Char :=
  ['%', hexDigit (b / 16), hexDigit (b % 16)]

/-- RFC 3986 unreserved characters, kept verbatim by `urlencoding::encode`. -/
def isUnreserved (c : Char) : Bool :=
  c.isAlphanum || c = '-' || c = '_' || c = '.' || c = '~'

/-- Models the external `urlencoding::encode` used by all three adapters:
every character outside the unreserved set is percent-encoded byte by byte. -/
def urlencode (s : String) : String :=
  String.mk (s.data.flatMap fun c =>
    if isUnreserved c then [c] else (utf8Bytes c.toNat).flatMap percentByte)

/-- `ProviderType` from `src/config.rs`. -/
inductive ProviderType where
  | github
  | gitlab
  | bitbucket
deriving DecidableEq

/-- `ProviderType::default_url` (src/config.rs). -/
def ProviderType.default_url : ProviderType → String
  | .github => "https://api.github.com"
  | .gitlab => "https://gitlab.com"
  | .bitbucket => "https://api.bitbucket.org/2.0"

/-- `ProviderType::from_name` (src/config.rs): infer the type from the
provider name, case-insensitively. -/
def ProviderType.from_name (name : String) : Option ProviderType :=
  if toLowerAscii name = "github" then some .github
  else if toLowerAscii name = "gitlab" then some .gitlab
  else if toLowerAscii name = "bitbucket" then some .bitbucket
  else none

/-- The serde name of each well-known kind (lower-case, as in the config
file and the `providers` map keys used by env overrides and migration). -/
def ProviderType.kindName : ProviderType → String
  | .github => "github"
  | .gitlab => "gitlab"
  | .bitbucket => "bitbucket"

/-- `ProviderEntry` from `src/config.rs`: a named entry of the unified
`providers` map. -/
structure ProviderEntry where
  provider_type : Option ProviderType
  token : Option String
  url : Option String
deriving DecidableEq

/-- `LegacyProviderConfig` from `src/config.rs`: a legacy top-level
`[github]`/`[gitlab]`/`[bitbucket]` section. -/
structure LegacyProviderConfig where
  token : Option String
  url : Option String
deriving DecidableEq

/-- `DefaultsConfig` from `src/config.rs`. -/
structure DefaultsConfig where
  providers : Option (List String)
  limit : Option Nat
deriving DecidableEq

/-- `Config` from `src/config.rs`; the `HashMap` of providers is modelled
as an association list with unique keys. -/
structure Config where
  defaults : DefaultsConfig
  providers : List (String × ProviderEntry)
  github : Option LegacyProviderConfig
  gitlab : Option LegacyProviderConfig
  bitbucket : Option LegacyProviderConfig
deriving DecidableEq

/-- `Config::default()`: what serde produces from an empty file. -/
def Config.default : Config :=
  ⟨⟨none, none⟩, [], none, none, none⟩

/-- `ResolvedProvider` from `src/config.rs`. -/
structure ResolvedProvider where
  name : String
  provider_type : ProviderType
  token : Option String
  url : String
deriving DecidableEq

/-- `HashMap::get` on the association-list model. -/
def lookupEntry : List (String × ProviderEntry) → String → Option ProviderEntry
  | [], _ => none
  | (k, e) :: rest, name => if k = name then some e else lookupEntry rest name

/-- `map.entry(k).or_insert(d)` followed by applying the in-place update `f`
to the entry: if `k` is present, `f` is applied to its entry; otherwise
`f d` is inserted. (`or_insert` alone is `upsert m k d id`.) -/
def upsert (m : List (String × ProviderEntry)) (k : String) (d : ProviderEntry)
    (f : ProviderEntry → ProviderEntry) : List (String × ProviderEntry) :=
  match m with
  | [] => [(k, f d)]
  | (k', e) :: rest =>
    if k' = k then (k', f e) :: rest else (k', e) :: upsert rest k d f

/-- The six override environment variables read by
`Config::apply_env_overrides`. -/
structure Env where
  github_token : Option String
  github_url : Option String
  gitlab_token : Option String
  gitlab_url : Option String
  bitbucket_token : Option String
  bitbucket_url : Option String
deriving DecidableEq

/-- The environment with none of the six variables set. -/
def Env.empty : Env := ⟨none, none, none, none, none, none⟩

/-- The token variable for a well-known kind (`GITHUB_TOKEN`, ...). -/
def Env.tokenVar (env : Env) : ProviderType → Option String
  | .github => env.github_token
  | .gitlab => env.gitlab_token
  | .bitbucket => env.bitbucket_token

/-- The URL variable for a well-known kind (`GITHUB_URL`, ...). -/
def Env.urlVar (env : Env) : ProviderType → Option String
  | .github => env.github_url
  | .gitlab => env.gitlab_url
  | .bitbucket => env.bitbucket_url

/-- The fresh entry inserted by an env override when the kind has no entry
yet: `ProviderEntry { provider_type: Some(t), token: None, url: None }`. -/
def freshEntry (t : ProviderType) : ProviderEntry := ⟨some t, none, none⟩

/-- One `if let Ok(v) = env::var(..)` block of `Config::apply_env_overrides`:
when the variable is set, `entry(k).or_insert(fresh).field = Some(v)`. -/
def applyVar (m : List (String × ProviderEntry)) (t : ProviderType)
    (f : String → ProviderEntry → ProviderEntry) :
    Option String → List (String × ProviderEntry)
  | none => m
  | some v => upsert m t.kindName (freshEntry t) (f v)

/-- The token-field write performed by a `*_TOKEN` override. -/
def setTokenField (v : String) (e : ProviderEntry) : ProviderEntry :=
  { e with token := some v }

/-- The url-field write performed by a `*_URL` override. -/
def setUrlField (v : String) (e : ProviderEntry) : ProviderEntry :=
  { e with url := some v }

/-- `Config::apply_env_overrides` (src/config.rs): the six variables are
applied in source order. -/
def Config.apply_env_overrides (cfg : Config) (env : Env) : Config :=
  let m := cfg.providers
  let m := applyVar m ProviderType.github setTokenField env.github_token
  let m := applyVar m ProviderType.github setUrlField env.github_url
  let m := applyVar m ProviderType.gitlab setTokenField env.gitlab_token
  let m := applyVar m ProviderType.gitlab setUrlField env.gitlab_url
  let m := applyVar m ProviderType.bitbucket setTokenField env.bitbucket_token
  let m := applyVar m ProviderType.bitbucket setUrlField env.bitbucket_url
  { cfg with providers := m }

/-- One `if let Some(legacy) = self.<kind>.take()` block of
`Config::migrate_legacy_providers`: `entry(name).or_insert(entry)`. -/
def migrateOne (m : List (String × ProviderEntry)) (t : ProviderType) :
    Option LegacyProviderConfig → List (String × ProviderEntry)
  | none => m
  | some legacy => upsert m t.kindName ⟨some t, legacy.token, legacy.url⟩ id

/-- `Config::migrate_legacy_providers` (src/config.rs): fold each legacy
top-level section into the unified map without overwriting, and clear the
legacy fields (`take()`). -/
def Config.migrate_legacy_providers (cfg : Config) : Config :=
  let m := cfg.providers
  let m := migrateOne m ProviderType.github cfg.github
  let m := migrateOne m ProviderType.gitlab cfg.gitlab
  let m := migrateOne m ProviderType.bitbucket cfg.bitbucket
  { cfg with providers := m, github := none, gitlab := none, bitbucket := none }

/-- The state of the persisted configuration file as seen by
`Config::load_from_file`: absent, unreadable/malformed, or parsed. -/
inductive FileState where
  | absent
  | malformed
  | parsed (cfg : Config)
deriving DecidableEq

/-- `Config::load_from_file` (src/config.rs): an absent file yields the
default configuration with `Ok`; a read or TOML parse failure yields `Err`. -/
def Config.load_from_file : FileState → Except String Config
  | .absent => .ok Config.default
  | .malformed => .error "malformed configuration file"
  | .parsed cfg => .ok cfg

/-- `Config::load` (src/config.rs): `load_from_file().unwrap_or_default()`,
then env overrides, then legacy migration. -/
def Config.load (fs : FileState) (env : Env) : Except String Config :=
  let base : Config :=
    match Config.load_from_file fs with
    | .ok cfg => cfg
    | .error _ => Config.default
  .ok ((base.apply_env_overrides env).migrate_legacy_providers)

/-- `Config::resolve_provider` (src/config.rs). -/
def Config.resolve_provider (cfg : Config) (name : String) :
    Option ResolvedProvider :=
  match lookupEntry cfg.providers name with
  | some entry =>
    match entry.provider_type.or (ProviderType.from_name name) with
    | none => none
    | some t =>
      some ⟨name, t, entry.token, entry.url.getD t.default_url⟩
  | none =>
    match ProviderType.from_name name with
    | some t => some ⟨name, t, none, t.default_url⟩
    | none => none

/-- One iteration of the built-in loop in `Config::provider_names`:
`if !names.contains(builtin) { names.push(builtin) }`. -/
def pushIfMissing (names : List String) (builtin : String) : List String :=
  if names.contains builtin then names else names ++ [builtin]

/-- `Config::provider_names` (src/config.rs): all map keys, plus each
built-in name not already present, sorted. -/
def Config.provider_names (cfg : Config) : List String :=
  let names := cfg.providers.map Prod.fst
  let names := pushIfMissing names "github"
  let names := pushIfMissing names "gitlab"
  let names := pushIfMissing names "bitbucket"
  List.mergeSort names strLe

/-- `Config::default_providers` (src/config.rs). -/
def Config.default_providers (cfg : Config) : List String :=
  cfg.defaults.providers.getD ["github", "gitlab", "bitbucket"]

/-- `DEFAULT_LIMIT` (src/main.rs). -/
def DEFAULT_LIMIT : Nat := 10

/-- The limit resolution of `main` (src/main.rs):
`args.limit.or(config.defaults.limit).unwrap_or(DEFAULT_LIMIT)`. -/
def resolveLimit (cliLimit : Option Nat) (cfg : Config) : Nat :=
  (cliLimit.or cfg.defaults.limit).getD DEFAULT_LIMIT

/-- `Repository` from `src/models.rs`. -/
structure Repository where
  name : String
  owner : String
  «private» : Bool
  provider : String
  url : String
  full_name : String
  description : Option String
deriving DecidableEq

/-- The distinguishable failures of an adapter call: missing-token identity
resolution, Bitbucket's unauthenticated-search refusal, a network send
failure, a non-2xx API response, and a body-parsing failure. -/
inductive SearchError where
  | authRequired
  | bitbucketUnauthenticated
  | netError (msg : String)
  | apiError (status : Nat) (body : String)
  | parseError
deriving DecidableEq

/-- The outcome of one HTTP GET, as far as an adapter can distinguish it:
send failure, non-2xx status with body, undecodable 2xx body, or a decoded
body of the endpoint's type. -/
inductive NetResult (α : Type) where
  | netErr (msg : String)
  | apiErr (status : Nat) (body : String)
  | parseErr
  | ok (val : α)

/-- `GitHubOwner` (src/providers/github.rs). -/
structure GitHubOwner where
  login : String
deriving DecidableEq

/-- `GitHubRepo` (src/providers/github.rs). -/
structure GitHubRepo where
  name : String
  full_name : String
  description : Option String
  html_url : String
  «private» : Bool
  owner : GitHubOwner
deriving DecidableEq

/-- `GitHubUser` (src/providers/github.rs). -/
structure GitHubUser where
  login : String
deriving DecidableEq

/-- `GitHubProvider` (src/providers/github.rs); the `reqwest::Client` is
not part of the adapter's observable state. -/
structure GitHubProvider where
  base_url : String
  token : Option String
  display_name : String
deriving DecidableEq

/-- The network oracle for the GitHub adapter: the response to
`GET {base_url}/user`, and the response to each search URL. -/
structure GitHubNet where
  user : NetResult GitHubUser
  search : String → NetResult (List GitHubRepo)

/-- `GitHubProvider::get_username` (src/providers/github.rs). Returns the
result together with the list of request URLs issued. -/
def GitHubProvider.get_username (p : GitHubProvider) (net : GitHubNet) :
    Except SearchError String × List String :=
  match p.token with
  | none => (.error .authRequired, [])
  | some _ =>
    let url := p.base_url ++ "/user"
    match net.user with
    | .netErr m => (.error (.netError m), [url])
    | .apiErr status _ => (.error (.apiError status ""), [url])
    | .parseErr => (.error .parseError, [url])
    | .ok u => (.ok u.login, [url])

/-- The field mapping of `GitHubProvider::search` from `GitHubRepo` to
`Repository` (src/providers/github.rs). -/
def GitHubRepo.toRepository (display_name : String) (repo : GitHubRepo) :
    Repository :=
  ⟨repo.name, repo.owner.login, repo.«private», display_name, repo.html_url,
    repo.full_name, repo.description⟩

/-- The request-issuing tail of `GitHubProvider::search`, given the final
search query string. -/
def GitHubProvider.do_search (p : GitHubProvider) (net : GitHubNet)
    (search_query : String) (limit : Nat) :
    Except SearchError (List Repository) × List String :=
  let url := p.base_url ++ "/search/repositories?q=" ++ urlencode search_query
    ++ "&per_page=" ++ toString limit
  match net.search url with
  | .netErr m => (.error (.netError m), [url])
  | .apiErr status body => (.error (.apiError status body), [url])
  | .parseErr => (.error .parseError, [url])
  | .ok items => (.ok (items.map (GitHubRepo.toRepository p.display_name)), [url])

/-- `GitHubProvider::search` (src/providers/github.rs): with `mine_only`,
first resolve the username and narrow the query with ` user:<name>`. -/
def GitHubProvider.search (p : GitHubProvider) (net : GitHubNet)
    (query : String) (mine_only : Bool) (limit : Nat) :
    Except SearchError (List Repository) × List String :=
  if mine_only then
    match p.get_username net with
    | (.error e, tr) => (.error e, tr)
    | (.ok username, tr) =>
      let r := p.do_search net (query ++ " user:" ++ username) limit
      (r.1, tr ++ r.2)
  else
    p.do_search net query limit

/-- `GitLabNamespace` (src/providers/gitlab.rs). -/
structure GitLabNamespace where
  name : String
deriving DecidableEq

/-- `GitLabProject` (src/providers/gitlab.rs). -/
structure GitLabProject where
  name : String
  path_with_namespace : String
  description : Option String
  web_url : String
  visibility : String
  «namespace» : GitLabNamespace
deriving DecidableEq

/-- `GitLabProvider` (src/providers/gitlab.rs). -/
structure GitLabProvider where
  base_url : String
  token : Option String
  display_name : String
deriving DecidableEq

/-- The field mapping of `GitLabProvider::search` from `GitLabProject` to
`Repository` (src/providers/gitlab.rs); a project is private iff its
visibility is not `"public"`. -/
def GitLabProject.toRepository (display_name : String)
    (project : GitLabProject) : Repository :=
  ⟨project.name, project.«namespace».name, project.visibility ≠ "public",
    display_name, project.web_url, project.path_with_namespace,
    project.description⟩

/-- `GitLabProvider::search` (src/providers/gitlab.rs): one request; with
`mine_only` the URL gains `&owned=true`. The oracle maps each URL to its
response. -/
def GitLabProvider.search (p : GitLabProvider)
    (net : String → NetResult (List GitLabProject)) (query : String)
    (mine_only : Bool) (limit : Nat) :
    Except SearchError (List Repository) × List String :=
  let url := p.base_url ++ "/api/v4/projects?search=" ++ urlencode query
    ++ "&per_page=" ++ toString limit
  let url := if mine_only then url ++ "&owned=true" else url
  match net url with
  | .netErr m => (.error (.netError m), [url])
  | .apiErr status body => (.error (.apiError status body), [url])
  | .parseErr => (.error .parseError, [url])
  | .ok projects =>
    (.ok (projects.map (GitLabProject.toRepository p.display_name)), [url])

/-- `BitbucketLink` (src/providers/bitbucket.rs). -/
structure BitbucketLink where
  href : String
deriving DecidableEq

/-- `BitbucketLinks` (src/providers/bitbucket.rs). -/
structure BitbucketLinks where
  html : BitbucketLink
deriving DecidableEq

/-- `BitbucketOwner` (src/providers/bitbucket.rs). -/
structure BitbucketOwner where
  display_name : String
deriving DecidableEq

/-- `BitbucketRepo` (src/providers/bitbucket.rs). -/
structure BitbucketRepo where
  name : String
  full_name : String
  description : Option String
  is_private : Bool
  links : BitbucketLinks
  owner : BitbucketOwner
deriving DecidableEq

/-- `BitbucketUser` (src/providers/bitbucket.rs). -/
structure BitbucketUser where
  username : String
deriving DecidableEq

/-- `BitbucketProvider` (src/providers/bitbucket.rs). -/
structure BitbucketProvider where
  base_url : String
  token : Option String
  display_name : String
deriving DecidableEq

/-- The network oracle for the Bitbucket adapter. -/
structure BitbucketNet where
  user : NetResult BitbucketUser
  search : String → NetResult (List BitbucketRepo)

/-- `BitbucketProvider::get_username` (src/providers/bitbucket.rs). -/
def BitbucketProvider.get_username (p : BitbucketProvider)
    (net : BitbucketNet) : Except SearchError String × List String :=
  match p.token with
  | none => (.error .authRequired, [])
  | some _ =>
    let url := p.base_url ++ "/user"
    match net.user with
    | .netErr m => (.error (.netError m), [url])
    | .apiErr status _ => (.error (.apiError status ""), [url])
    | .parseErr => (.error .parseError, [url])
    | .ok u => (.ok u.username, [url])

/-- The field mapping of `BitbucketProvider::search` from `BitbucketRepo`
to `Repository` (src/providers/bitbucket.rs). -/
def BitbucketRepo.toRepository (display_name : String)
    (repo : BitbucketRepo) : Repository :=
  ⟨repo.name, repo.owner.display_name, repo.is_private, display_name,
    repo.links.html.href, repo.full_name, repo.description⟩

/-- The request-issuing tail of `BitbucketProvider::search`, given the URL. -/
def BitbucketProvider.do_search (p : BitbucketProvider) (net : BitbucketNet)
    (url : String) : Except SearchError (List Repository) × List String :=
  match net.search url with
  | .netErr m => (.error (.netError m), [url])
  | .apiErr status body => (.error (.apiError status body), [url])
  | .parseErr => (.error .parseError, [url])
  | .ok values =>
    (.ok (values.map (BitbucketRepo.toRepository p.display_name)), [url])

/-- `BitbucketProvider::search` (src/providers/bitbucket.rs): refuses
unauthenticated non-mine-only search outright; with `mine_only` (or a
token) it resolves the username first and searches under that user's path. -/
def BitbucketProvider.search (p : BitbucketProvider) (net : BitbucketNet)
    (query : String) (mine_only : Bool) (limit : Nat) :
    Except SearchError (List Repository) × List String :=
  if !mine_only && p.token.isNone then
    (.error .bitbucketUnauthenticated, [])
  else if mine_only || p.token.isSome then
    match p.get_username net with
    | (.error e, tr) => (.error e, tr)
    | (.ok username, tr) =>
      let url := p.base_url ++ "/repositories/" ++ username ++ "?q=name~\""
        ++ urlencode query ++ "\"&pagelen=" ++ toString limit
      let r := p.do_search net url
      (r.1, tr ++ r.2)
  else
    let url := p.base_url ++ "/repositories?q=name~\"" ++ urlencode query
      ++ "\"&pagelen=" ++ toString limit
    p.do_search net url

/-- A wire-level GitHub owner object before serde decoding: each field may
be absent. -/
structure RawGitHubOwner where
  login : Option String
deriving DecidableEq

/-- A wire-level GitHub search item before serde decoding. -/
structure RawGitHubItem where
  name : Option String
  full_name : Option String
  description : Option String
  html_url : Option String
  «private» : Option Bool
  owner : Option RawGitHubOwner
deriving DecidableEq

/-- serde's derived `Deserialize` for `GitHubOwner`: `login` is required. -/
def decodeGitHubOwner : RawGitHubOwner → Option GitHubOwner
  | ⟨some login⟩ => some ⟨login⟩
  | ⟨none⟩ => none

/-- serde's derived `Deserialize` for `GitHubRepo`: every field except the
`Option<String>` field `description` is required; a missing required field
fails the item. -/
def decodeGitHubRepo (raw : RawGitHubItem) : Option GitHubRepo :=
  match raw.name, raw.full_name, raw.html_url, raw.«private», raw.owner with
  | some name, some full_name, some html_url, some priv, some owner =>
    (decodeGitHubOwner owner).map
      (fun o => ⟨name, full_name, raw.description, html_url, priv, o⟩)
  | _, _, _, _, _ => none

/-- serde's `Deserialize` for `Vec<GitHubRepo>` (the `items` array): one
failing item fails the whole response. -/
def decodeGitHubItems (items : List RawGitHubItem) : Option (List GitHubRepo) :=
  items.mapM decodeGitHubRepo

/-- A wire-level GitLab namespace object before serde decoding. -/
structure RawGitLabNamespace where
  name : Option String
deriving DecidableEq

/-- A wire-level GitLab project object before serde decoding. -/
structure RawGitLabProject where
  name : Option String
  path_with_namespace : Option String
  description : Option String
  web_url : Option String
  visibility : Option String
  «namespace» : Option RawGitLabNamespace
deriving DecidableEq

/-- serde's derived `Deserialize` for `GitLabNamespace`: `name` required. -/
def decodeGitLabNamespace : RawGitLabNamespace → Option GitLabNamespace
  | ⟨some name⟩ => some ⟨name⟩
  | ⟨none⟩ => none

/-- serde's derived `Deserialize` for `GitLabProject`: every field except
`description` is required. -/
def decodeGitLabProject (raw : RawGitLabProject) : Option GitLabProject :=
  match raw.name, raw.path_with_namespace, raw.web_url, raw.visibility,
      raw.«namespace» with
  | some name, some path, some web_url, some visibility, some ns =>
    (decodeGitLabNamespace ns).map
      (fun n => ⟨name, path, raw.description, web_url, visibility, n⟩)
  | _, _, _, _, _ => none

/-- serde's `Deserialize` for `Vec<GitLabProject>`. -/
def decodeGitLabProjects (projects : List RawGitLabProject) :
    Option (List GitLabProject) :=
  projects.mapM decodeGitLabProject

/-- A wire-level Bitbucket owner object before serde decoding. -/
structure RawBitbucketOwner where
  display_name : Option String
deriving DecidableEq

/-- A wire-level Bitbucket repository object before serde decoding; the
nested `links.html.href` chain is flattened to its optional leaves. -/
structure RawBitbucketRepo where
  name : Option String
  full_name : Option String
  description : Option String
  is_private : Option Bool
  href : Option String
  owner : Option RawBitbucketOwner
deriving DecidableEq

/-- serde's derived `Deserialize` for `BitbucketOwner`: `display_name`
required. -/
def decodeBitbucketOwner : RawBitbucketOwner → Option BitbucketOwner
  | ⟨some display_name⟩ => some ⟨display_name⟩
  | ⟨none⟩ => none

/-- serde's derived `Deserialize` for `BitbucketRepo`: every field except
`description` is required. -/
def decodeBitbucketRepo (raw : RawBitbucketRepo) : Option BitbucketRepo :=
  match raw.name, raw.full_name, raw.is_private, raw.href, raw.owner with
  | some name, some full_name, some is_private, some href, some owner =>
    (decodeBitbucketOwner owner).map
      (fun o => ⟨name, full_name, raw.description, is_private, ⟨⟨href⟩⟩, o⟩)
  | _, _, _, _, _ => none

/-- serde's `Deserialize` for `Vec<BitbucketRepo>` (the `values` array). -/
def decodeBitbucketRepos (values : List RawBitbucketRepo) :
    Option (List BitbucketRepo) :=
  values.mapM decodeBitbucketRepo

/-- The arguments handed to one spawned search unit by `execute_searches`
(src/main.rs, the `join_set.spawn` loop). -/
structure UnitCall where
  name : String
  provider_type : ProviderType
  url : String
  token : Option String
  query : String
  mine_only : Bool
  owner : Option String
  limit : Nat
deriving DecidableEq

/-- The spawn loop of `execute_searches` (src/main.rs): one unit per
resolved provider, every unit receiving the same query, flags, and limit. -/
def spawnCalls (providers : List ResolvedProvider) (query : String)
    (mine_only : Bool) (owner : Option String) (limit : Nat) :
    List UnitCall :=
  providers.map (fun p =>
    ⟨p.name, p.provider_type, p.url, p.token, query, mine_only, owner, limit⟩)

/-- One completion delivered by `JoinSet::join_next` (src/main.rs): either
a finished unit carrying its provider name and result (the error already
rendered to its display string), or an execution-layer task failure. -/
inductive JoinOutcome where
  | completed (name : String) (result : Except String (List Repository))
  | panicked (msg : String)

/-- The join loop of `execute_searches` (src/main.rs), folded over the
completions in completion order: successes are concatenated, failures are
rendered as `"<name>: <error>"`, task failures as `"Task error: <e>"`. -/
def execute_searches (completions : List JoinOutcome) :
    List Repository × List String :=
  completions.foldl
    (fun acc oc =>
      match oc with
      | .completed _ (.ok repos) => (acc.1 ++ repos, acc.2)
      | .completed name (.error e) => (acc.1, acc.2 ++ [name ++ ": " ++ e])
      | .panicked e => (acc.1, acc.2 ++ ["Task error: " ++ e]))
    ([], [])

/-- The legacy section of a configuration for a given well-known kind. -/
def legacyOf (cfg : Config) : ProviderType → Option LegacyProviderConfig
  | .github => cfg.github
  | .gitlab => cfg.gitlab
  | .bitbucket => cfg.bitbucket

/-- A GitLab network oracle answering every search with an empty page. -/
def glNetOkEmpty : String → NetResult (List GitLabProject) :=
  fun _ => NetResult.ok []

/-- A configuration whose only unified entry is a custom name without a
declared type (the spec's `providers.my-custom` example). -/
def cfgC7 : Config :=
  ⟨⟨none, none⟩, [("my-custom", ⟨none, some "t", some "https://x.com"⟩)],
    none, none, none⟩

/-- A configuration with both a unified `providers.github` entry and a
legacy `[github]` section, for exercising migration. -/
def cfgC8 : Config :=
  ⟨⟨none, none⟩,
    [("github", ⟨some .github, some "unified-token", some "https://unified.example"⟩)],
    some ⟨some "legacy-token", some "https://legacy.example"⟩, none, none⟩

/-- A configuration with one custom provider entry. -/
def cfgC9 : Config :=
  ⟨⟨none, none⟩,
    [("work-gitlab", ⟨some .gitlab, none, some "https://gitlab.work.com"⟩)],
    none, none, none⟩

/-- A file configuration whose only GitHub data is a legacy `[github]`
section carrying a URL. -/
def cfgC4 : Config :=
  ⟨⟨none, none⟩, [], some ⟨none, some "https://github.example.com"⟩, none, none⟩

/-- A file configuration with a unified `providers.github` entry carrying
both a token and a URL. -/
def cfgC4w : Config :=
  ⟨⟨none, none⟩,
    [("github", ⟨none, some "file-token", some "https://file.example"⟩)],
    none, none, none⟩

/-- An environment setting only `GITHUB_TOKEN`. -/
def envC4 : Env := ⟨some "env-token", none, none, none, none, none⟩

/-- A concrete repository record. -/
def repoA : Repository :=
  ⟨"alpha", "owner1", false, "github", "https://github.com/owner1/alpha",
    "owner1/alpha", none⟩

/-- Another concrete repository record. -/
def repoB : Repository :=
  ⟨"beta", "owner1", true, "github", "https://github.com/owner1/beta",
    "owner1/beta", some "a beta repo"⟩


/-- Helper: a list that is a permutation of a two-element list is one of
its two orderings. -/
theorem perm_pair_eq {α : Type _} {a b : α} {l : List α}
    (h : l.Perm [a, b]) : l = [a, b] ∨ l = [b, a] := by
  have hlen : l.length = 2 := by simpa using h.length_eq
  cases l with
  | nil => simp at hlen
  | cons x t =>
    cases t with
    | nil => simp at hlen
    | cons y t2 =>
      cases t2 with
      | cons z t3 => simp at hlen
      | nil =>
        have hx : x ∈ [a, b] := h.mem_iff.mp (List.mem_cons_self x [y])
        rcases List.mem_pair.mp hx with hxa | hxb
        · left
          rw [hxa] at h ⊢
          have h2 : [y].Perm [b] := h.cons_inv
          have hy : y = b := by simpa using List.perm_singleton.mp h2
          rw [hy]
        · right
          rw [hxb] at h ⊢
          have h2 : [y].Perm [a] := (h.trans (List.Perm.swap b a [])).cons_inv
          have hy : y = a := by simpa using List.perm_singleton.mp h2
          rw [hy]

/-- C1 (counterexample): loading with a malformed persisted configuration
file is not fatal — `Config::load` returns `Ok` with the default (empty)
configuration, contradicting the claim that the process aborts. -/
theorem load_malformed_returns_ok :
    Config.load FileState.malformed Env.empty = Except.ok Config.default :=
  rfl

/-- C1 (amended): a malformed persisted configuration file is silently
discarded: `Config::load` behaves exactly as if the file were absent,
returning `Ok` with the default configuration (after env overrides and
legacy migration) instead of aborting. -/
theorem load_malformed_falls_back_to_default (env : Env) :
    Config.load FileState.malformed env = Config.load FileState.absent env ∧
    (Config.load FileState.malformed env).isOk = true :=
  ⟨rfl, rfl⟩

/-- C5: if one provider's unit succeeds with two repositories and the
other's fails, `execute_searches` returns exactly those two repositories
and exactly the one warning `"<name>: <error>"`, in whichever order the
two units complete. -/
theorem execute_searches_partial_failure
    (cs : List JoinOutcome) (n1 n2 : String) (r1 r2 : Repository) (e : String)
    (h : cs.Perm [JoinOutcome.completed n1 (Except.ok [r1, r2]),
                  JoinOutcome.completed n2 (Except.error e)]) :
    execute_searches cs = ([r1, r2], [n2 ++ ": " ++ e]) := by
  rcases perm_pair_eq h with h' | h' <;> subst h' <;> rfl

/-- C5 (witness): the two units completing in failure-first order. -/
theorem execute_searches_partial_failure_witness :
    execute_searches
      [JoinOutcome.completed "bitbucket" (Except.error "network down"),
       JoinOutcome.completed "github" (Except.ok [repoA, repoB])] =
      ([repoA, repoB], ["bitbucket: network down"]) :=
  execute_searches_partial_failure _ "github" "bitbucket" repoA repoB
    "network down"
    (List.Perm.swap (JoinOutcome.completed "github" (Except.ok [repoA, repoB]))
      (JoinOutcome.completed "bitbucket" (Except.error "network down")) [])

/-- C10: the per-provider limit is the CLI limit if given, else the
configuration's `defaults.limit`, else the constant `DEFAULT_LIMIT = 10`,
and the spawn loop passes that one limit to every search unit. -/
theorem limit_precedence_and_propagation :
    (∀ (n : Nat) (cfg : Config), resolveLimit (some n) cfg = n) ∧
    (∀ (m : Nat) (cfg : Config),
      resolveLimit none
        { cfg with defaults := { cfg.defaults with limit := some m } } = m) ∧
    (∀ (cfg : Config),
      resolveLimit none
        { cfg with defaults := { cfg.defaults with limit := none } } =
        DEFAULT_LIMIT) ∧
    DEFAULT_LIMIT = 10 ∧
    (∀ (providers : List ResolvedProvider) (query : String) (mine_only : Bool)
      (owner : Option String) (limit : Nat),
      (spawnCalls providers query mine_only owner limit).map UnitCall.limit =
        List.replicate providers.length limit) := by
  refine ⟨fun n cfg => rfl, fun m cfg => rfl, fun cfg => rfl, rfl, ?_⟩
  intro ps q mo ow l
  induction ps with
  | nil => rfl
  | cons p rest ih => simpa [spawnCalls, List.replicate] using ih

/-- C2 (counterexample): GitLab's adapter, invoked with `mineOnly` and no
token, does not fail with an AuthRequired-style error: it issues the
(narrowed) search request and succeeds when the server answers. -/
theorem gitlab_mine_only_without_token_succeeds :
    GitLabProvider.search ⟨"https://gitlab.com", none, "gitlab"⟩ glNetOkEmpty
        "q" true 5 =
      (Except.ok [],
        ["https://gitlab.com/api/v4/projects?search=q&per_page=5&owned=true"]) :=
  rfl

/-- C2 (amended): with `mineOnly` and no token, the GitHub and Bitbucket
adapters fail with AuthRequired while resolving the authenticated identity,
before issuing any request; the GitLab adapter does not resolve an identity
and does not fail locally — it issues exactly one search request, narrowed
with `&owned=true` (never an unnarrowed search). -/
theorem mine_only_without_token_auth_behavior
    (base ghName glName bbName query : String) (limit : Nat)
    (ghNet : GitHubNet) (bbNet : BitbucketNet)
    (glNet : String → NetResult (List GitLabProject)) :
    GitHubProvider.search ⟨base, none, ghName⟩ ghNet query true limit =
      (Except.error SearchError.authRequired, []) ∧
    BitbucketProvider.search ⟨base, none, bbName⟩ bbNet query true limit =
      (Except.error SearchError.authRequired, []) ∧
    (GitLabProvider.search ⟨base, none, glName⟩ glNet query true limit).2 =
      [base ++ "/api/v4/projects?search=" ++ urlencode query ++ "&per_page="
        ++ toString limit ++ "&owned=true"] := by
  refine ⟨rfl, rfl, ?_⟩
  cases hres : glNet (base ++ "/api/v4/projects?search=" ++ urlencode query
      ++ "&per_page=" ++ toString limit ++ "&owned=true") <;>
    simp [GitLabProvider.search, hres]

/-- C6: with no token and `mineOnly` unset, the Bitbucket adapter refuses
the search before issuing any request, while the GitHub and GitLab adapters
proceed and issue their search request. -/
theorem bitbucket_refuses_unauthenticated_search
    (base name query : String) (limit : Nat) (bbNet : BitbucketNet)
    (ghNet : GitHubNet) (glNet : String → NetResult (List GitLabProject)) :
    BitbucketProvider.search ⟨base, none, name⟩ bbNet query false limit =
      (Except.error SearchError.bitbucketUnauthenticated, []) ∧
    (GitHubProvider.search ⟨base, none, name⟩ ghNet query false limit).2 =
      [base ++ "/search/repositories?q=" ++ urlencode query ++ "&per_page="
        ++ toString limit] ∧
    (GitLabProvider.search ⟨base, none, name⟩ glNet query false limit).2 =
      [base ++ "/api/v4/projects?search=" ++ urlencode query ++ "&per_page="
        ++ toString limit] := by
  refine ⟨rfl, ?_, ?_⟩
  · cases hres : ghNet.search (base ++ "/search/repositories?q="
        ++ urlencode query ++ "&per_page=" ++ toString limit) <;>
      simp [GitHubProvider.search, GitHubProvider.do_search, hres]
  · cases hres : glNet (base ++ "/api/v4/projects?search=" ++ urlencode query
        ++ "&per_page=" ++ toString limit) <;>
      simp [GitLabProvider.search, hres]

/-- C3 (counterexample): a GitHub search item that omits the `owner` field
makes the whole response fail to parse — no empty owner is substituted. -/
theorem github_missing_owner_rejects_response :
    decodeGitHubItems
      [⟨some "foo", some "bar/foo", some "d",
        some "https://github.com/bar/foo", some false, none⟩] = none :=
  rfl

/-- C3 (amended): each adapter's mapping from its parsed native repository
type to `Repository` is total (one record per item); a wire item omitting
`description` parses with an absent description; but the owner-carrying
field (`owner` / `namespace`) is required by the wire schema, so an item
omitting it fails to parse, rejecting the response, rather than receiving
an empty owner. -/
theorem adapter_mapping_total_and_description_optional :
    (∀ (d : String) (items : List GitHubRepo),
      (items.map (GitHubRepo.toRepository d)).length = items.length) ∧
    (∀ (d : String) (projects : List GitLabProject),
      (projects.map (GitLabProject.toRepository d)).length = projects.length) ∧
    (∀ (d : String) (values : List BitbucketRepo),
      (values.map (BitbucketRepo.toRepository d)).length = values.length) ∧
    (∀ (n fn hu : String) (pr : Bool) (l : String),
      decodeGitHubRepo ⟨some n, some fn, none, some hu, some pr, some ⟨some l⟩⟩ =
        some ⟨n, fn, none, hu, pr, ⟨l⟩⟩) ∧
    (∀ (n p wu v nm : String),
      decodeGitLabProject ⟨some n, some p, none, some wu, some v, some ⟨some nm⟩⟩ =
        some ⟨n, p, none, wu, v, ⟨nm⟩⟩) ∧
    (∀ (n fn : String) (ip : Bool) (hr dn : String),
      decodeBitbucketRepo ⟨some n, some fn, none, some ip, some hr, some ⟨some dn⟩⟩ =
        some ⟨n, fn, none, ip, ⟨⟨hr⟩⟩, ⟨dn⟩⟩) ∧
    (∀ (n fn : String) (d : Option String) (hu : String) (pr : Bool),
      decodeGitHubRepo ⟨some n, some fn, d, some hu, some pr, none⟩ = none) ∧
    (∀ (n p : String) (d : Option String) (wu v : String),
      decodeGitLabProject ⟨some n, some p, d, some wu, some v, none⟩ = none) ∧
    (∀ (n fn : String) (d : Option String) (ip : Bool) (hr : String),
      decodeBitbucketRepo ⟨some n, some fn, d, some ip, some hr, none⟩ = none) :=
  ⟨fun _ items => items.length_map _, fun _ projects => projects.length_map _,
   fun _ values => values.length_map _,
   fun _ _ _ _ _ => rfl, fun _ _ _ _ _ => rfl, fun _ _ _ _ _ => rfl,
   fun _ _ _ _ _ => rfl, fun _ _ _ _ _ => rfl, fun _ _ _ _ _ => rfl⟩

/-- C7: provider-name resolution never guesses a kind: when the name does
not case-insensitively match a well-known kind, and its entry (if any)
declares no type, `resolve_provider` returns `None`. -/
theorem resolve_provider_never_guesses (cfg : Config) (name : String)
    (h1 : ProviderType.from_name name = none)
    (h2 : ∀ e, lookupEntry cfg.providers name = some e →
      e.provider_type = none) :
    cfg.resolve_provider name = none := by
  unfold Config.resolve_provider
  cases hl : lookupEntry cfg.providers name with
  | none => simp [h1]
  | some e => simp [h2 e hl, h1, Option.or]

/-- C7 (witness): the spec's `providers.my-custom` example (an entry with
url and token but no type), and resolution fails. -/
theorem resolve_provider_never_guesses_witness :
    ProviderType.from_name "my-custom" = none ∧
    cfgC7.resolve_provider "my-custom" = none :=
  ⟨by decide, resolve_provider_never_guesses cfgC7 "my-custom" (by decide)
    (by decide)⟩

/-- Helper: upserting under one key leaves lookups of other keys alone. -/
theorem lookup_upsert_ne (m : List (String × ProviderEntry)) (ku : String)
    (d : ProviderEntry) (f : ProviderEntry → ProviderEntry) (kl : String)
    (h : ku ≠ kl) : lookupEntry (upsert m ku d f) kl = lookupEntry m kl := by
  induction m with
  | nil => simp [upsert, lookupEntry, h]
  | cons p rest ih =>
    obtain ⟨a, b⟩ := p
    simp only [upsert]
    by_cases hak : a = ku
    · subst hak
      simp [lookupEntry, h]
    · by_cases hal : a = kl <;>
        simp [hak, hal, lookupEntry, ih, if_neg (Ne.symm h)]

/-- Helper: upserting a key that is present applies the field update to its
entry. -/
theorem lookup_upsert_self_of_some (m : List (String × ProviderEntry))
    (ku : String) (d : ProviderEntry) (f : ProviderEntry → ProviderEntry)
    (e : ProviderEntry) (h : lookupEntry m ku = some e) :
    lookupEntry (upsert m ku d f) ku = some (f e) := by
  induction m with
  | nil => simp [lookupEntry] at h
  | cons p rest ih =>
    obtain ⟨a, b⟩ := p
    simp only [upsert, lookupEntry] at h ⊢
    by_cases hak : a = ku
    · simp [hak, lookupEntry] at h ⊢
      rw [h]
    · simp [hak, lookupEntry] at h ⊢
      exact ih h

/-- Helper: an unset env variable changes nothing; a set one only touches
its own kind's key. -/
theorem lookup_applyVar_ne (m : List (String × ProviderEntry))
    (t : ProviderType) (f : String → ProviderEntry → ProviderEntry)
    (v : Option String) (kl : String) (h : t.kindName ≠ kl) :
    lookupEntry (applyVar m t f v) kl = lookupEntry m kl := by
  cases v with
  | none => rfl
  | some s => exact lookup_upsert_ne m t.kindName (freshEntry t) (f s) kl h

/-- Helper: an env variable applied over a present entry updates exactly
the written field of that entry. -/
theorem lookup_applyVar_self_of_some (m : List (String × ProviderEntry))
    (t : ProviderType) (f : String → ProviderEntry → ProviderEntry)
    (v : Option String) (e : ProviderEntry)
    (h : lookupEntry m t.kindName = some e) :
    lookupEntry (applyVar m t f v) t.kindName =
      some (v.elim e (fun s => f s e)) := by
  cases v with
  | none => exact h
  | some s => exact lookup_upsert_self_of_some m t.kindName (freshEntry t) (f s) e h

/-- Helper: migrating one legacy section never changes a key that is
already present. -/
theorem lookup_migrateOne_of_some (m : List (String × ProviderEntry))
    (t : ProviderType) (lc : Option LegacyProviderConfig) (kl : String)
    (e : ProviderEntry) (h : lookupEntry m kl = some e) :
    lookupEntry (migrateOne m t lc) kl = some e := by
  cases lc with
  | none => exact h
  | some l =>
    by_cases hk : t.kindName = kl
    · subst hk
      simpa using lookup_upsert_self_of_some m t.kindName _ id e h
    · rw [migrateOne, lookup_upsert_ne m t.kindName _ id kl hk]
      exact h

/-- C8: legacy migration never overwrites an already-present unified
`providers.<kind>` entry — the entry is unchanged — and the legacy section
for that kind is discarded. -/
theorem migration_preserves_existing_entry (cfg : Config) (t : ProviderType)
    (e : ProviderEntry) (h : lookupEntry cfg.providers t.kindName = some e) :
    lookupEntry cfg.migrate_legacy_providers.providers t.kindName = some e ∧
    legacyOf cfg.migrate_legacy_providers t = none := by
  refine ⟨?_, by cases t <;> rfl⟩
  exact lookup_migrateOne_of_some _ ProviderType.bitbucket cfg.bitbucket _ e
    (lookup_migrateOne_of_some _ ProviderType.gitlab cfg.gitlab _ e
      (lookup_migrateOne_of_some _ ProviderType.github cfg.github _ e h))

/-- C8 (witness): a unified `providers.github` entry coexisting with a
legacy `[github]` section; migration keeps the unified entry bit-for-bit
and drops the legacy section. -/
theorem migration_preserves_existing_entry_witness :
    lookupEntry cfgC8.providers "github" =
      some ⟨some ProviderType.github, some "unified-token",
        some "https://unified.example"⟩ ∧
    lookupEntry cfgC8.migrate_legacy_providers.providers "github" =
      some ⟨some ProviderType.github, some "unified-token",
        some "https://unified.example"⟩ ∧
    legacyOf cfgC8.migrate_legacy_providers ProviderType.github = none :=
  ⟨by decide,
    (migration_preserves_existing_entry cfgC8 ProviderType.github _
      (by decide)).1,
    (migration_preserves_existing_entry cfgC8 ProviderType.github
      ⟨some ProviderType.github, some "unified-token",
        some "https://unified.example"⟩ (by decide)).2⟩

/-- C4 (counterexample): with only a legacy `[github]` section carrying a
URL in the file and `GITHUB_TOKEN` set, the loaded entry has token
`"env-token"` but url `None` — the legacy URL did not remain intact,
because env overrides run before legacy migration and migration never
overwrites. -/
theorem env_token_override_discards_legacy_url :
    cfgC4.github = some ⟨none, some "https://github.example.com"⟩ ∧
    Config.load (FileState.parsed cfgC4) envC4 =
      Except.ok ⟨⟨none, none⟩,
        [("github", ⟨some ProviderType.github, some "env-token", none⟩)],
        none, none, none⟩ :=
  ⟨rfl, rfl⟩

/-- C4 (amended): for every well-known kind with an entry in the file's
unified `providers` map, each env override sets only its own field: after
the full load pipeline the entry's type is unchanged and each of token/url
is the env value when the variable is set, else the file value. (A field
supplied only via a legacy per-kind section is not preserved when an env
variable targets that kind, as the counterexample shows.) -/
theorem env_override_preserves_other_field (fileCfg : Config) (env : Env)
    (t : ProviderType) (e : ProviderEntry)
    (h : lookupEntry fileCfg.providers t.kindName = some e) :
    lookupEntry
        ((fileCfg.apply_env_overrides env).migrate_legacy_providers).providers
        t.kindName =
      some ⟨e.provider_type, (env.tokenVar t).or e.token,
        (env.urlVar t).or e.url⟩ ∧
    Config.load (FileState.parsed fileCfg) env =
      Except.ok ((fileCfg.apply_env_overrides env).migrate_legacy_providers) := by
  refine ⟨?_, rfl⟩
  have hm : lookupEntry (fileCfg.apply_env_overrides env).providers t.kindName =
      some ⟨e.provider_type, (env.tokenVar t).or e.token,
        (env.urlVar t).or e.url⟩ := by
    cases t with
    | github =>
      have h1 := lookup_applyVar_self_of_some fileCfg.providers
        ProviderType.github setTokenField env.github_token e h
      have h2 := lookup_applyVar_self_of_some _
        ProviderType.github setUrlField env.github_url _ h1
      show lookupEntry
          (applyVar (applyVar (applyVar (applyVar
            (applyVar (applyVar fileCfg.providers
              ProviderType.github setTokenField env.github_token)
              ProviderType.github setUrlField env.github_url)
              ProviderType.gitlab setTokenField env.gitlab_token)
              ProviderType.gitlab setUrlField env.gitlab_url)
              ProviderType.bitbucket setTokenField env.bitbucket_token)
              ProviderType.bitbucket setUrlField env.bitbucket_url)
          ProviderType.github.kindName = _
      rw [lookup_applyVar_ne _ ProviderType.bitbucket setUrlField
            env.bitbucket_url ProviderType.github.kindName (by decide),
          lookup_applyVar_ne _ ProviderType.bitbucket setTokenField
            env.bitbucket_token ProviderType.github.kindName (by decide),
          lookup_applyVar_ne _ ProviderType.gitlab setUrlField
            env.gitlab_url ProviderType.github.kindName (by decide),
          lookup_applyVar_ne _ ProviderType.gitlab setTokenField
            env.gitlab_token ProviderType.github.kindName (by decide), h2]
      simp only [Env.tokenVar, Env.urlVar]
      cases e
      cases env.github_token <;> cases env.github_url <;> rfl
    | gitlab =>
      have h3 := lookup_applyVar_ne fileCfg.providers ProviderType.github
        setTokenField env.github_token ProviderType.gitlab.kindName (by decide)
      have h4 := lookup_applyVar_ne
        (applyVar fileCfg.providers ProviderType.github setTokenField
          env.github_token)
        ProviderType.github setUrlField env.github_url
        ProviderType.gitlab.kindName (by decide)
      have h1 := lookup_applyVar_self_of_some
        (applyVar (applyVar fileCfg.providers ProviderType.github
          setTokenField env.github_token)
          ProviderType.github setUrlField env.github_url)
        ProviderType.gitlab setTokenField env.gitlab_token e
        (by rw [h4, h3]; exact h)
      have h2 := lookup_applyVar_self_of_some
        (applyVar (applyVar (applyVar fileCfg.providers ProviderType.github
          setTokenField env.github_token)
          ProviderType.github setUrlField env.github_url)
          ProviderType.gitlab setTokenField env.gitlab_token)
        ProviderType.gitlab setUrlField env.gitlab_url _ h1
      show lookupEntry
          (applyVar (applyVar (applyVar (applyVar
            (applyVar (applyVar fileCfg.providers
              ProviderType.github setTokenField env.github_token)
              ProviderType.github setUrlField env.github_url)
              ProviderType.gitlab setTokenField env.gitlab_token)
              ProviderType.gitlab setUrlField env.gitlab_url)
              ProviderType.bitbucket setTokenField env.bitbucket_token)
              ProviderType.bitbucket setUrlField env.bitbucket_url)
          ProviderType.gitlab.kindName = _
      rw [lookup_applyVar_ne _ ProviderType.bitbucket setUrlField
            env.bitbucket_url ProviderType.gitlab.kindName (by decide),
          lookup_applyVar_ne _ ProviderType.bitbucket setTokenField
            env.bitbucket_token ProviderType.gitlab.kindName (by decide), h2]
      simp only [Env.tokenVar, Env.urlVar]
      cases e
      cases env.gitlab_token <;> cases env.gitlab_url <;> rfl
    | bitbucket =>
      have h3 := lookup_applyVar_ne fileCfg.providers ProviderType.github
        setTokenField env.github_token ProviderType.bitbucket.kindName
        (by decide)
      have h4 := lookup_applyVar_ne
        (applyVar fileCfg.providers ProviderType.github setTokenField
          env.github_token)
        ProviderType.github setUrlField env.github_url
        ProviderType.bitbucket.kindName (by decide)
      have h5 := lookup_applyVar_ne
        (applyVar (applyVar fileCfg.providers ProviderType.github
          setTokenField env.github_token)
          ProviderType.github setUrlField env.github_url)
        ProviderType.gitlab setTokenField env.gitlab_token
        ProviderType.bitbucket.kindName (by decide)
      have h6 := lookup_applyVar_ne
        (applyVar (applyVar (applyVar fileCfg.providers ProviderType.github
          setTokenField env.github_token)
          ProviderType.github setUrlField env.github_url)
          ProviderType.gitlab setTokenField env.gitlab_token)
        ProviderType.gitlab setUrlField env.gitlab_url
        ProviderType.bitbucket.kindName (by decide)
      have h1 := lookup_applyVar_self_of_some
        (applyVar (applyVar (applyVar (applyVar fileCfg.providers
          ProviderType.github setTokenField env.github_token)
          ProviderType.github setUrlField env.github_url)
          ProviderType.gitlab setTokenField env.gitlab_token)
          ProviderType.gitlab setUrlField env.gitlab_url)
        ProviderType.bitbucket setTokenField env.bitbucket_token e
        (by rw [h6, h5, h4, h3]; exact h)
      have h2 := lookup_applyVar_self_of_some
        (applyVar (applyVar (applyVar (applyVar (applyVar fileCfg.providers
          ProviderType.github setTokenField env.github_token)
          ProviderType.github setUrlField env.github_url)
          ProviderType.gitlab setTokenField env.gitlab_token)
          ProviderType.gitlab setUrlField env.gitlab_url)
          ProviderType.bitbucket setTokenField env.bitbucket_token)
        ProviderType.bitbucket setUrlField env.bitbucket_url _ h1
      show lookupEntry
          (applyVar (applyVar (applyVar (applyVar
            (applyVar (applyVar fileCfg.providers
              ProviderType.github setTokenField env.github_token)
              ProviderType.github setUrlField env.github_url)
              ProviderType.gitlab setTokenField env.gitlab_token)
              ProviderType.gitlab setUrlField env.gitlab_url)
              ProviderType.bitbucket setTokenField env.bitbucket_token)
              ProviderType.bitbucket setUrlField env.bitbucket_url)
          ProviderType.bitbucket.kindName = _
      rw [h2]
      simp only [Env.tokenVar, Env.urlVar]
      cases e
      cases env.bitbucket_token <;> cases env.bitbucket_url <;> rfl
  exact lookup_migrateOne_of_some _ ProviderType.bitbucket _ _ _
    (lookup_migrateOne_of_some _ ProviderType.gitlab _ _ _
      (lookup_migrateOne_of_some _ ProviderType.github _ _ _ hm))

/-- C4 (witness): a file-loaded `providers.github` entry with token and
URL; `GITHUB_TOKEN` replaces the token while the file URL survives. -/
theorem env_override_preserves_other_field_witness :
    lookupEntry cfgC4w.providers "github" =
      some ⟨none, some "file-token", some "https://file.example"⟩ ∧
    lookupEntry
        ((cfgC4w.apply_env_overrides envC4).migrate_legacy_providers).providers
        "github" =
      some ⟨none, some "env-token", some "https://file.example"⟩ :=
  ⟨by decide,
    (env_override_preserves_other_field cfgC4w envC4 ProviderType.github
      ⟨none, some "file-token", some "https://file.example"⟩ (by decide)).1⟩

/-- Helper: lexicographic comparison is total. -/
theorem lexLe_total (as bs : List Char) : (lexLe as bs || lexLe bs as) = true := by
  induction as generalizing bs with
  | nil => simp [lexLe]
  | cons a as ih =>
    cases bs with
    | nil => simp [lexLe]
    | cons b bs =>
      simp only [lexLe]
      by_cases h1 : a.toNat < b.toNat
      · simp [h1]
      · by_cases h2 : b.toNat < a.toNat
        · simp [h1, h2]
        · simp [h1, h2, ih bs]

/-- Helper: lexicographic comparison is transitive. -/
theorem lexLe_trans (as : List Char) : ∀ bs cs, lexLe as bs = true →
    lexLe bs cs = true → lexLe as cs = true := by
  induction as with
  | nil => intro bs cs _ _; simp [lexLe]
  | cons a as ih =>
    intro bs cs h1 h2
    cases bs with
    | nil => simp [lexLe] at h1
    | cons b bs =>
      cases cs with
      | nil => simp [lexLe] at h2
      | cons c cs =>
        simp only [lexLe] at h1 h2 ⊢
        by_cases hab : a.toNat < b.toNat <;> by_cases hba : b.toNat < a.toNat <;>
          by_cases hbc : b.toNat < c.toNat <;> by_cases hcb : c.toNat < b.toNat <;>
            simp [hab, hba, hbc, hcb] at h1 h2 ⊢ <;>
              first
                | omega
                | (constructor <;> omega)
                | exact ih bs cs h1 h2
                | (left; omega)
                | (have hac1 : ¬ a.toNat < c.toNat := by omega
                   have hac2 : ¬ c.toNat < a.toNat := by omega
                   simp [hac1, hac2]
                   first
                     | exact ih bs cs h1 h2
                     | exact ⟨by omega, ih bs cs h1 h2⟩)

/-- Helper: `strLe` is total. -/
theorem strLe_total (a b : String) : (strLe a b || strLe b a) = true :=
  lexLe_total a.data b.data

/-- Helper: `strLe` is transitive. -/
theorem strLe_trans (a b c : String) (h1 : strLe a b = true)
    (h2 : strLe b c = true) : strLe a c = true :=
  lexLe_trans a.data b.data c.data h1 h2

/-- Helper: pushing a missing built-in preserves membership. -/
theorem mem_pushIfMissing_of_mem (l : List String) (b x : String)
    (h : x ∈ l) : x ∈ pushIfMissing l b := by
  unfold pushIfMissing
  split
  · exact h
  · exact List.mem_append_left _ h

/-- Helper: the pushed built-in is a member afterwards. -/
theorem self_mem_pushIfMissing (l : List String) (b : String) :
    b ∈ pushIfMissing l b := by
  unfold pushIfMissing
  split
  · next hc => simpa [List.contains] using List.elem_iff.mp hc
  · exact List.mem_append_right _ (List.mem_singleton.mpr rfl)

/-- Helper: pushing a missing built-in preserves `Nodup`. -/
theorem nodup_pushIfMissing (l : List String) (b : String)
    (h : l.Nodup) : (pushIfMissing l b).Nodup := by
  unfold pushIfMissing
  split
  · exact h
  · next hc =>
    have hb : b ∉ l := by
      intro hm
      exact hc (List.elem_iff.mpr hm)
    simp [List.nodup_append, h, hb]

/-- C9: `provider_names` always contains the three built-in names and all
map keys, has no duplicates (given the map's key uniqueness), and is
lexicographically sorted. -/
theorem provider_names_complete_nodup_sorted (cfg : Config)
    (h : (cfg.providers.map Prod.fst).Nodup) :
    "github" ∈ cfg.provider_names ∧ "gitlab" ∈ cfg.provider_names ∧
    "bitbucket" ∈ cfg.provider_names ∧
    (∀ k ∈ cfg.providers.map Prod.fst, k ∈ cfg.provider_names) ∧
    cfg.provider_names.Nodup ∧
    List.Pairwise (fun a b => strLe a b = true) cfg.provider_names := by
  have hperm : cfg.provider_names.Perm
      (pushIfMissing (pushIfMissing (pushIfMissing
        (cfg.providers.map Prod.fst) "github") "gitlab") "bitbucket") :=
    List.mergeSort_perm _ strLe
  refine ⟨?_, ?_, ?_, ?_, ?_, ?_⟩
  · exact hperm.mem_iff.mpr
      (mem_pushIfMissing_of_mem _ _ _ (mem_pushIfMissing_of_mem _ _ _
        (self_mem_pushIfMissing _ _)))
  · exact hperm.mem_iff.mpr
      (mem_pushIfMissing_of_mem _ _ _ (self_mem_pushIfMissing _ _))
  · exact hperm.mem_iff.mpr (self_mem_pushIfMissing _ _)
  · intro k hk
    exact hperm.mem_iff.mpr
      (mem_pushIfMissing_of_mem _ _ _ (mem_pushIfMissing_of_mem _ _ _
        (mem_pushIfMissing_of_mem _ _ _ hk)))
  · exact hperm.nodup_iff.mpr
      (nodup_pushIfMissing _ _ (nodup_pushIfMissing _ _
        (nodup_pushIfMissing _ _ h)))
  · exact List.sorted_mergeSort
      (fun a b c => strLe_trans a b c) (fun a b => strLe_total a b) _

/-- C9 (witness): a configuration with one custom entry; the result is the
sorted, duplicate-free union with the three built-ins. -/
theorem provider_names_witness :
    (cfgC9.providers.map Prod.fst).Nodup ∧
    "github" ∈ cfgC9.provider_names ∧ cfgC9.provider_names.Nodup ∧
    List.Pairwise (fun a b => strLe a b = true) cfgC9.provider_names := by
  refine ⟨by decide, ?_, ?_, ?_⟩
  · exact (provider_names_complete_nodup_sorted cfgC9 (by decide)).1
  · exact (provider_names_complete_nodup_sorted cfgC9 (by decide)).2.2.2.2.1
  · exact (provider_names_complete_nodup_sorted cfgC9 (by decide)).2.2.2.2.2
